import Mathlib

/-!
Verification of the PolyHedge Portfolio Allocation & Rebalancing Engine.

The definitions below are a shallow embedding of the TypeScript results page
(`handleReset`, `handleUpdateBudget`, `handleUpdateBet`) and of the metrics
module (`calculateRiskScore`, `calculateBundleMetrics`,
`calculatePortfolioMetrics`).  Numbers are modelled by `ℚ` (the engine only
performs field arithmetic, which is exact over `ℚ`; exact equalities imply
every floating-point tolerance stated in the spec), except that the risk
score uses `Real.sqrt` and therefore lives in `ℝ`.  JavaScript's numeric
`x || d` idiom (fallback on `0`, `NaN` or `undefined`) is modelled by
`jsNumOr`; a field that may be `undefined` in JS is modelled as `0`, which
is read identically through `jsNumOr` at every read site of the engine.
String-valued display fields (`coverage_summary`, market data) play no role
in any numeric claim and are omitted from the model.
-/

namespace PolyHedge

/-- One portfolio position (TS interface `HedgeBet`), numeric fields only. -/
structure HedgeBet where
  allocation : ℚ
  payout_multiplier : ℚ
  potential_payout : ℚ
  current_price : ℚ
  deriving DecidableEq

/-- A themed group of bets sharing one budget (TS interface `HedgeBundle`). -/
structure HedgeBundle where
  budget : ℚ
  bets : List HedgeBet
  total_allocated : ℚ
  deriving DecidableEq

/-- JavaScript's `x || d` applied to a number: `d` when `x` is falsy (`0`,
and also `NaN`/`undefined`, both modelled as `0` here), else `x`. -/
def jsNumOr (x d : ℚ) : ℚ := if x = 0 then d else x

/-- The interactive state of the results page: the pristine snapshot
(`originalBundles`), the working copy (`currentBundles`) and the budget
input field.  `budgetInput` models `parseFloat(budgetInput)`: `none` is a
string that parses to `NaN`, `some q` a string parsing to the number `q`. -/
structure ResultsState where
  originalBundles : List HedgeBundle
  currentBundles : List HedgeBundle
  budgetInput : Option ℚ
  deriving DecidableEq

/-- `parseFloat(budgetInput) || 100` as evaluated inside `handleReset`. -/
def intendedBudget (s : ResultsState) : ℚ :=
  match s.budgetInput with
  | none => 100
  | some q => if q = 0 then 100 else q

/-- Sum of the allocations of the bets at positions other than `betIndex`,
positions counted from `i`.  Started at `i = 0` this is the page's
`bets.filter((_, idx) => idx !== betIndex).reduce((sum, b) => sum + b.allocation, 0)`. -/
def othersAllocSum (betIndex : ℕ) : ℕ → List HedgeBet → ℚ
  | _, [] => 0
  | i, b :: t => (if i = betIndex then 0 else b.allocation) + othersAllocSum betIndex (i + 1) t

/-- Number of bets at positions other than `betIndex`, positions counted
from `i`; started at `i = 0` this is the page's `otherBets.length`. -/
def othersCount (betIndex : ℕ) : ℕ → List HedgeBet → ℕ
  | _, [] => 0
  | i, _ :: t => (if i = betIndex then 0 else 1) + othersCount betIndex (i + 1) t

/-- The `bets.forEach` loop of the allocation branch of `handleUpdateBet`:
the bet at `betIndex` receives `newAllocation`, every other bet receives
`remainder * share` with `share = allocation / currentSumOthers` when
`currentSumOthers > 0` and `share = 1 / otherLen` otherwise; every touched
bet's `potential_payout` is recomputed as `allocation * payout_multiplier`.
`i` is the position of the head of the list (the loop starts at `0`). -/
def rebalanceBets (betIndex : ℕ) (newAllocation remainder currentSumOthers : ℚ)
    (otherLen : ℕ) : ℕ → List HedgeBet → List HedgeBet
  | _, [] => []
  | i, bet :: rest =>
    (if i = betIndex then
      { bet with
        allocation := newAllocation
        potential_payout := newAllocation * bet.payout_multiplier }
    else
      let share : ℚ :=
        if 0 < currentSumOthers then bet.allocation / currentSumOthers
        else 1 / (otherLen : ℚ)
      { bet with
        allocation := remainder * share
        potential_payout := remainder * share * bet.payout_multiplier }) ::
    rebalanceBets betIndex newAllocation remainder currentSumOthers otherLen (i + 1) rest

/-- The editable field of a bet (`'allocation' | 'multiplier'`). -/
inductive BetField
  | allocation
  | multiplier
  deriving DecidableEq

/-- Trigger A, `handleUpdateBet(bundleIndex, betIndex, field, value)` of the
results page.  A `bundleIndex` out of range (where the JS would throw on
spreading `undefined`) and, in the multiplier branch, a `betIndex` out of
range (where the JS would throw assigning to `undefined`) are outside the
modelled domain and leave the state unchanged. -/
def handleUpdateBet (s : ResultsState) (bundleIndex betIndex : ℕ)
    (field : BetField) (value : ℚ) : ResultsState :=
  match s.currentBundles[bundleIndex]? with
  | none => s
  | some bundle =>
    match field with
    | BetField.allocation =>
      let totalBudget := jsNumOr bundle.budget 100
      let newAllocation := min (max value 0) totalBudget
      let remainder := totalBudget - newAllocation
      let currentSumOthers := othersAllocSum betIndex 0 bundle.bets
      let otherLen := othersCount betIndex 0 bundle.bets
      let newBets := rebalanceBets betIndex newAllocation remainder currentSumOthers otherLen 0 bundle.bets
      let newBundle := { bundle with bets := newBets, total_allocated := totalBudget }
      { s with currentBundles := s.currentBundles.set bundleIndex newBundle }
    | BetField.multiplier =>
      match bundle.bets[betIndex]? with
      | none => s
      | some targetBet =>
        let newBet :=
          { targetBet with
            payout_multiplier := value
            potential_payout := targetBet.allocation * value }
        let newBundle := { bundle with bets := bundle.bets.set betIndex newBet }
        { s with currentBundles := s.currentBundles.set bundleIndex newBundle }

/-- Trigger B, `handleUpdateBudget(val)` of the results page.  The raw input
is stored into `budgetInput` before any validation; the update itself is
skipped when no bundles are loaded, the input does not parse, or the parsed
value is not positive, and also when `oldBudget <= 0` (which, through the
`|| 100` fallback, happens exactly when the first bundle's budget is
negative). -/
def handleUpdateBudget (s : ResultsState) (val : Option ℚ) : ResultsState :=
  let s' := { s with budgetInput := val }
  match val with
  | none => s'
  | some newBudget =>
    match s.currentBundles with
    | [] => s'
    | b0 :: _ =>
      if newBudget ≤ 0 then s'
      else
        let oldBudget := jsNumOr b0.budget 100
        if oldBudget ≤ 0 then s'
        else
          let scale := newBudget / oldBudget
          let scaled := s.currentBundles.map fun bundle =>
            { bundle with
              budget := newBudget
              bets := bundle.bets.map fun bet =>
                { bet with
                  allocation := bet.allocation * scale
                  potential_payout := bet.potential_payout * scale } }
          { s' with currentBundles := scaled }

/-- Trigger C, `handleReset(bundleIndex)` of the results page: a no-op when
no pristine snapshot exists, otherwise the pristine bundle at that index is
deep-copied into the working list and, when the intended budget
(`parseFloat(budgetInput) || 100`) differs from the restored bundle's
`budget || 100` and the latter is positive, the restored bundle is rescaled.
An out-of-range `bundleIndex` (where the JS would throw in
`JSON.parse(JSON.stringify(undefined))`) is outside the modelled domain and
leaves the state unchanged. -/
def handleReset (s : ResultsState) (bundleIndex : ℕ) : ResultsState :=
  if s.originalBundles = [] then s
  else
    match s.originalBundles[bundleIndex]? with
    | none => s
    | some pristine =>
      let intended := intendedBudget s
      let originalBudget := jsNumOr pristine.budget 100
      let restored :=
        if intended ≠ originalBudget ∧ 0 < originalBudget then
          { pristine with
            budget := intended
            bets := pristine.bets.map fun b =>
              { b with
                allocation := b.allocation * (intended / originalBudget)
                potential_payout := b.potential_payout * (intended / originalBudget) } }
        else pristine
      let newCurrent := s.currentBundles.set bundleIndex restored
      { s with currentBundles := newCurrent }

/-- The data found in session storage: the generated bundles and the stored
metrics' `total_budget` (the only metrics field the load path reads). -/
structure StoredData where
  bundles : List HedgeBundle
  total_budget : ℚ
  deriving DecidableEq

/-- `total_budget?.toFixed(0)`: rounding to the nearest integer, ties to the
larger integer, exactly ECMAScript's `toFixed` tie rule and Mathlib's
`round`. -/
def jsToFixed0 (q : ℚ) : ℚ := ((round q : ℤ) : ℚ)

/-- The load effect of the page's `useEffect`: the parsed bundles become the
working copy, a deep copy of them the pristine snapshot, and the budget
input is initialised to `parsed.metrics.total_budget?.toFixed(0) || '100'`
(an integer-valued numeric string, hence always parseable later). -/
def loadState (d : StoredData) : ResultsState :=
  { originalBundles := d.bundles
    currentBundles := d.bundles
    budgetInput := some (jsToFixed0 d.total_budget) }

/-- One user-initiated rebalancing operation. -/
inductive Trigger
  | updateBet (bundleIndex betIndex : ℕ) (field : BetField) (value : ℚ)
  | updateBudget (val : Option ℚ)
  | reset (bundleIndex : ℕ)

/-- Dispatch of a trigger on the page state. -/
def applyTrigger (s : ResultsState) : Trigger → ResultsState
  | Trigger.updateBet i j f v => handleUpdateBet s i j f v
  | Trigger.updateBudget v => handleUpdateBudget s v
  | Trigger.reset i => handleReset s i

/-- A whole user session: triggers applied in order. -/
def applyTriggers (s : ResultsState) (ts : List Trigger) : ResultsState :=
  ts.foldl applyTrigger s

/-- Sum of the allocations of a list of bets. -/
def allocSum (l : List HedgeBet) : ℚ := (l.map HedgeBet.allocation).sum

/-! ### The metrics module (`web/src/lib/metrics.ts`) -/

/-- `b.current_price || 0.5`: the neutral fallback price used by the risk
score when the price is absent (modelled as `0`) or zero. -/
def effectivePrice (b : HedgeBet) : ℚ :=
  if b.current_price = 0 then 1/2 else b.current_price

/-- `calculateRiskScore(bets)`: 70% portfolio standard deviation (variance
under an independence assumption, scaled by 400 and capped at 100) blended
with 30% average distance-from-certainty risk.  Only the square root lives
in `ℝ`; every accumulation is exact rational arithmetic as in the source's
reduces. -/
noncomputable def calculateRiskScore (bets : List HedgeBet) : ℝ :=
  if bets = [] then 0
  else
    let prices := bets.map effectivePrice
    let allocations := bets.map HedgeBet.allocation
    let totalAlloc := allocations.foldl (· + ·) 0
    if totalAlloc ≤ 0 then 0
    else
      let weights := allocations.map fun a => a / totalAlloc
      let portfolioVariance : ℚ :=
        (weights.zip prices).foldl (fun sum wp => sum + wp.1 * wp.1 * wp.2 * (1 - wp.2)) 0
      let portfolioStdDev : ℝ := Real.sqrt (portfolioVariance : ℝ)
      let riskScore : ℝ := min (portfolioStdDev * 400) 100
      let avgPriceDist : ℚ :=
        (prices.foldl (fun sum p => sum + |p - 1/2|) 0) / (prices.length : ℚ)
      let avgIndRisk : ℚ := (1 - avgPriceDist * 2) * 100
      0.7 * riskScore + 0.3 * (avgIndRisk : ℝ)

/-- `Math.max(...)` over a list noted nonempty at every call site. -/
def listMax : List ℚ → ℚ
  | [] => 0
  | x :: t => t.foldl max x

/-- `Math.min(...)` over a list noted nonempty at every call site. -/
def listMin : List ℚ → ℚ
  | [] => 0
  | x :: t => t.foldl min x

/-- The numeric fields of `BundleMetrics` (display-only fields that the
source pins to the constants 0, and the theme-name string, are omitted). -/
structure BundleMetrics where
  total_allocation : ℚ
  num_markets : ℕ
  avg_payout_multiplier : ℚ
  max_payout : ℚ
  min_payout : ℚ
  total_max_payout : ℚ
  risk_score : ℝ

/-- `calculateBundleMetrics(bundle)`: zeroed record for an empty bet list,
otherwise fresh sums, extrema and the risk score over the bundle's bets. -/
noncomputable def calculateBundleMetrics (bundle : HedgeBundle) : BundleMetrics :=
  if bundle.bets = [] then
    { total_allocation := 0
      num_markets := 0
      avg_payout_multiplier := 1
      max_payout := 0
      min_payout := 0
      total_max_payout := 0
      risk_score := 0 }
  else
    let bets := bundle.bets
    let totalAllocation : ℚ := bets.foldl (fun sum b => sum + b.allocation) 0
    let payouts := bets.map HedgeBet.potential_payout
    let totalMaxPayout := payouts.foldl (· + ·) 0
    let riskScore := calculateRiskScore bets
    let weightedSum : ℚ := bets.foldl (fun sum b => sum + b.allocation * b.payout_multiplier) 0
    let avgMultiplier := if 0 < totalAllocation then weightedSum / totalAllocation else 1
    { total_allocation := totalAllocation
      num_markets := bets.length
      avg_payout_multiplier := avgMultiplier
      max_payout := listMax payouts
      min_payout := listMin payouts
      total_max_payout := totalMaxPayout
      risk_score := riskScore }

/-- The numeric fields of `PortfolioMetrics` (fields the source pins to the
constant 0 are omitted). -/
structure PortfolioMetrics where
  total_budget : ℚ
  total_allocated : ℚ
  num_bundles : ℕ
  total_markets : ℕ
  overall_risk_score : ℝ
  total_max_payout : ℚ
  bundle_metrics : List BundleMetrics

/-- `calculatePortfolioMetrics(bundles)`: per-bundle metrics mapped over
the bundles, the recorded `total_allocated` fields summed (not recomputed
from bets), the budget read from the first bundle (`bundles[0]?.budget || 0`)
and the overall risk `totalRiskWeight / totalAllocated` when the latter is
positive. -/
noncomputable def calculatePortfolioMetrics (bundles : List HedgeBundle) : PortfolioMetrics :=
  let bundleMetrics := bundles.map calculateBundleMetrics
  let totalAllocated : ℚ := bundles.foldl (fun sum b => sum + b.total_allocated) 0
  let totalMaxPayout : ℚ := bundleMetrics.foldl (fun sum m => sum + m.total_max_payout) 0
  let totalRiskWeight : ℝ :=
    bundleMetrics.foldl (fun sum m => sum + m.risk_score * (m.total_allocation : ℝ)) (0 : ℝ)
  let overallRisk : ℝ := if 0 < totalAllocated then totalRiskWeight / (totalAllocated : ℝ) else 0
  { total_budget := match bundles with | [] => 0 | b :: _ => jsNumOr b.budget 0
    total_allocated := totalAllocated
    num_bundles := bundles.length
    total_markets := bundles.foldl (fun sum b => sum + b.bets.length) 0
    overall_risk_score := overallRisk
    total_max_payout := totalMaxPayout
    bundle_metrics := bundleMetrics }

/-- The defaulted bet used for out-of-range index reads in spec formulas. -/
def defaultBet : HedgeBet := ⟨0, 0, 0, 0⟩

/-- `score_bundle_risk` as the spec states it: with `p k` the k-th bet's
price (0.5 substituted when absent or zero) and `w k = a k / T` the
normalised weights, the score is
`0.7 * min(sqrt(Σ w k ^ 2 * p k * (1 - p k)) * 400, 100)
 + 0.3 * (1 - mean |p k - 0.5| * 2) * 100`,
and `0` for an empty list or a non-positive allocation sum. -/
noncomputable def score_bundle_risk_spec (bets : List HedgeBet) : ℝ :=
  let n := bets.length
  let p : ℕ → ℚ := fun k => effectivePrice (bets.getD k defaultBet)
  let a : ℕ → ℚ := fun k => (bets.getD k defaultBet).allocation
  let T : ℚ := ∑ k ∈ Finset.range n, a k
  if n = 0 ∨ T ≤ 0 then 0
  else
    let w : ℕ → ℚ := fun k => a k / T
    let variance : ℚ := ∑ k ∈ Finset.range n, (w k) ^ 2 * p k * (1 - p k)
    let risk_a : ℝ := min (Real.sqrt (variance : ℝ) * 400) 100
    let avg_dist : ℚ := (∑ k ∈ Finset.range n, |p k - 1/2|) / (n : ℚ)
    let risk_b : ℚ := (1 - avg_dist * 2) * 100
    0.7 * risk_a + 0.3 * (risk_b : ℝ)

/-! ### Generic list facts used throughout -/

theorem lt_length_of_getElem?_eq_some {α : Type} {l : List α} {i : ℕ} {a : α}
    (h : l[i]? = some a) : i < l.length := by
  by_contra hn
  rw [List.getElem?_eq_none (by omega)] at h
  exact Option.noConfusion h

theorem set_eq_self_of_getElem?_eq_some {α : Type} :
    ∀ (l : List α) (i : ℕ) (a : α), l[i]? = some a → l.set i a = l
  | [], _, _, h => Option.noConfusion h
  | x :: t, 0, a, h => by
    simp only [List.getElem?_cons_zero, Option.some.injEq] at h
    simp [List.set, h]
  | x :: t, i + 1, a, h => by
    simp only [List.getElem?_cons_succ] at h
    simp [List.set, set_eq_self_of_getElem?_eq_some t i a h]

/-! ### Structure of the Trigger A rebalancing loop -/

theorem allocSum_nil : allocSum [] = 0 := rfl

theorem allocSum_cons (b : HedgeBet) (t : List HedgeBet) :
    allocSum (b :: t) = b.allocation + allocSum t := by
  simp [allocSum]

/-- Sum of allocations produced by the rebalancing loop, proportional case:
the target position contributes `v` (when it lies in the traversed range)
and every other position its proportional share of `R`. -/
theorem allocSum_rebalanceBets_of_pos (j : ℕ) (v R S : ℚ) (m : ℕ) (hS : 0 < S) :
    ∀ (i : ℕ) (l : List HedgeBet),
      allocSum (rebalanceBets j v R S m i l) =
        (if i ≤ j ∧ j < i + l.length then v else 0) + R / S * othersAllocSum j i l
  | i, [] => by
    rw [rebalanceBets, othersAllocSum, allocSum_nil]
    simp only [List.length_nil]
    rw [if_neg (by omega)]
    ring
  | i, b :: t => by
    rw [rebalanceBets, othersAllocSum, allocSum_cons,
        allocSum_rebalanceBets_of_pos j v R S m hS (i + 1) t]
    simp only [apply_ite HedgeBet.allocation, List.length_cons, if_pos hS]
    split_ifs with h1 h2 h3 <;> first
      | (exfalso; omega)
      | (field_simp; ring)
      | ring

/-- Sum of allocations produced by the rebalancing loop, equal-shares case:
every other position receives `R / m`. -/
theorem allocSum_rebalanceBets_of_nonpos (j : ℕ) (v R S : ℚ) (m : ℕ) (hS : ¬ 0 < S) :
    ∀ (i : ℕ) (l : List HedgeBet),
      allocSum (rebalanceBets j v R S m i l) =
        (if i ≤ j ∧ j < i + l.length then v else 0) +
          R * (1 / (m : ℚ)) * (othersCount j i l : ℚ)
  | i, [] => by
    rw [rebalanceBets, othersCount, allocSum_nil]
    simp only [List.length_nil]
    rw [if_neg (by omega)]
    push_cast
    ring
  | i, b :: t => by
    rw [rebalanceBets, othersCount, allocSum_cons,
        allocSum_rebalanceBets_of_nonpos j v R S m hS (i + 1) t]
    simp only [apply_ite HedgeBet.allocation, List.length_cons, if_neg hS]
    split_ifs with h1 h2 h3 <;> first
      | (exfalso; omega)
      | (push_cast; ring)

/-- The rebalancing loop keeps the number of bets. -/
theorem length_rebalanceBets (j : ℕ) (v R S : ℚ) (m : ℕ) :
    ∀ (i : ℕ) (l : List HedgeBet), (rebalanceBets j v R S m i l).length = l.length
  | _, [] => rfl
  | i, _ :: t => by
    rw [rebalanceBets]
    simp [length_rebalanceBets j v R S m (i + 1) t]

/-- `otherBets.length`: when the target index is in range there are
`length - 1` other bets, otherwise all bets are others. -/
theorem othersCount_eq (j : ℕ) :
    ∀ (i : ℕ) (l : List HedgeBet),
      othersCount j i l = if i ≤ j ∧ j < i + l.length then l.length - 1 else l.length
  | i, [] => by
    rw [othersCount]
    simp only [List.length_nil]
    rw [if_neg (by omega)]
  | i, b :: t => by
    rw [othersCount, othersCount_eq j (i + 1) t]
    simp only [List.length_cons]
    split_ifs <;> omega

theorem jsNumOr_of_ne (x d : ℚ) (h : x ≠ 0) : jsNumOr x d = x := by
  simp [jsNumOr, h]

theorem jsNumOr_zero (d : ℚ) : jsNumOr 0 d = d := by
  simp [jsNumOr]

/-- Whatever target value and pre-edit allocations, on a list of at least
two bets the rebalancing loop restores the sum of allocations to the
budget `B` it distributes. -/
theorem allocSum_rebalanceBets_full (l : List HedgeBet) (j : ℕ) (v B : ℚ)
    (h2 : 2 ≤ l.length) (hj : j < l.length) :
    allocSum (rebalanceBets j v (B - v) (othersAllocSum j 0 l)
      (othersCount j 0 l) 0 l) = B := by
  by_cases hS : 0 < othersAllocSum j 0 l
  · rw [allocSum_rebalanceBets_of_pos j v (B - v) _ _ hS 0 l,
      if_pos (by omega)]
    rw [div_mul_cancel₀ _ (ne_of_gt hS)]
    ring
  · rw [allocSum_rebalanceBets_of_nonpos j v (B - v) _ _ hS 0 l,
      if_pos (by omega)]
    have hm : othersCount j 0 l = l.length - 1 := by
      rw [othersCount_eq j 0 l, if_pos (by omega)]
    have hm0 : ((othersCount j 0 l : ℚ)) ≠ 0 := by
      rw [hm]
      have : 1 ≤ l.length - 1 := by omega
      exact Nat.cast_ne_zero.mpr (by omega)
    field_simp

/-- C1 (amended).  For every bundle holding at least two bets and a nonzero
recorded budget, a completed Trigger A allocation edit (any target value,
any in-range bet index, any prior allocations — hence after each edit of an
arbitrary edit sequence) leaves the sum of the bundle's bet allocations
exactly equal to the bundle's budget (hence within `1e-6` of it) and sets
`total_allocated` to the budget.  The original claim extended this to
single-bet bundles, which `updateBet_single_bet_breaks_sum` refutes. -/
theorem updateBet_sum_eq_budget_of_two_bets (s : ResultsState) (i j : ℕ) (v : ℚ)
    (bundle : HedgeBundle) (hb : s.currentBundles[i]? = some bundle)
    (h2 : 2 ≤ bundle.bets.length) (hbud : bundle.budget ≠ 0)
    (hj : j < bundle.bets.length) :
    ∃ bundle',
      (handleUpdateBet s i j BetField.allocation v).currentBundles[i]? = some bundle' ∧
      allocSum bundle'.bets = bundle.budget ∧
      bundle'.total_allocated = bundle.budget ∧
      bundle'.budget = bundle.budget ∧
      |allocSum bundle'.bets - bundle.budget| < 1 / 1000000 := by
  have hlen : i < s.currentBundles.length := lt_length_of_getElem?_eq_some hb
  rw [handleUpdateBet, hb]
  simp only [jsNumOr_of_ne bundle.budget 100 hbud]
  refine ⟨_, List.getElem?_set_eq_of_lt _ (by simpa using hlen), ?_, rfl, rfl, ?_⟩
  · exact allocSum_rebalanceBets_full bundle.bets j _ bundle.budget h2 hj
  · rw [allocSum_rebalanceBets_full bundle.bets j _ bundle.budget h2 hj]
    simp

/-- Witness for `updateBet_sum_eq_budget_of_two_bets`: the spec's
proportional-redistribution scenario (budget 100, bets [60, 40, 0], editing
bet 2 to 20) satisfies all hypotheses and the conclusion. -/
theorem updateBet_sum_eq_budget_of_two_bets_witness :
    ∃ bundle',
      (handleUpdateBet
        { originalBundles := []
          currentBundles := [{ budget := 100
                               bets := [⟨60, 1, 60, 1/2⟩, ⟨40, 1, 40, 1/2⟩, ⟨0, 1, 0, 1/2⟩]
                               total_allocated := 100 }]
          budgetInput := some 100 } 0 2 BetField.allocation 20).currentBundles[0]? = some bundle' ∧
      allocSum bundle'.bets = 100 ∧
      bundle'.total_allocated = 100 ∧
      bundle'.budget = 100 ∧
      |allocSum bundle'.bets - 100| < 1 / 1000000 :=
  updateBet_sum_eq_budget_of_two_bets _ 0 2 20
    { budget := 100
      bets := [⟨60, 1, 60, 1/2⟩, ⟨40, 1, 40, 1/2⟩, ⟨0, 1, 0, 1/2⟩]
      total_allocated := 100 }
    rfl (by decide) (by norm_num) (by decide)

/-- C1 counterexample.  On a single-bet bundle (budget 100, allocation 100)
editing the lone bet's allocation to 40 completes with allocation sum 40,
not the budget 100: the sum-equals-budget invariant fails by 60, far
outside the `1e-6` tolerance, even though `total_allocated` is set to 100. -/
theorem updateBet_single_bet_breaks_sum :
    (handleUpdateBet
      { originalBundles := []
        currentBundles := [{ budget := 100
                             bets := [⟨100, 1, 100, 1/2⟩]
                             total_allocated := 100 }]
        budgetInput := some 100 } 0 0 BetField.allocation 40).currentBundles =
      [{ budget := 100, bets := [⟨40, 1, 40, 1/2⟩], total_allocated := 100 }] ∧
    ¬ |allocSum [(⟨40, 1, 40, 1/2⟩ : HedgeBet)] - (100 : ℚ)| < 1 / 1000000 := by
  constructor
  · simp [handleUpdateBet, jsNumOr, rebalanceBets, othersAllocSum, othersCount, min_def, max_def]
    norm_num
  · rw [show allocSum [(⟨40, 1, 40, 1/2⟩ : HedgeBet)] = 40 from by norm_num [allocSum]]
    rw [show (40 : ℚ) - 100 = -60 from by norm_num, abs_neg, abs_of_nonneg (by norm_num)]
    norm_num

/-- Pointwise description of the rebalancing loop: the target position gets
the clamped value, every other position its share of the remainder. -/
theorem getElem?_rebalanceBets (j : ℕ) (v R S : ℚ) (m : ℕ) :
    ∀ (i : ℕ) (l : List HedgeBet) (k : ℕ),
      (rebalanceBets j v R S m i l)[k]? =
        Option.map (fun bet =>
          if i + k = j then
            { bet with allocation := v, potential_payout := v * bet.payout_multiplier }
          else
            { bet with
              allocation := R * (if 0 < S then bet.allocation / S else 1 / (m : ℚ))
              potential_payout :=
                R * (if 0 < S then bet.allocation / S else 1 / (m : ℚ)) *
                  bet.payout_multiplier })
          l[k]?
  | _, [], k => by simp [rebalanceBets]
  | i, b :: t, 0 => by
    simp only [rebalanceBets, List.getElem?_cons_zero, Option.map_some', Nat.add_zero]
  | i, b :: t, k + 1 => by
    simp only [rebalanceBets, List.getElem?_cons_succ]
    rw [getElem?_rebalanceBets j v R S m (i + 1) t k]
    have hik : i + 1 + k = i + (k + 1) := by omega
    rw [hik]

/-- C3 (amended).  A Trigger A allocation edit clamps the requested value
into `[0, B]` where `B` is the bundle's budget with `100` substituted when
the recorded budget is `0` (the `budget || 100` fallback — the original
claim's bound `[0, budget]` fails exactly on zero-budget bundles, see
`updateBet_zero_budget_clamp_counterexample`); the target bet becomes the
clamped value, and every other bet receives the remainder `B - clamped`
times its pre-edit proportional share when the others' pre-edit sum is
positive, or an equal share `1 / (n - 1)` otherwise.  The two spec
scenarios `[100,0,0] → [40,30,30]` and `[60,40,0] → [48,32,20]` hold. -/
theorem updateBet_allocation_redistribution :
    (∀ (s : ResultsState) (i j : ℕ) (v : ℚ) (bundle : HedgeBundle),
      s.currentBundles[i]? = some bundle → j < bundle.bets.length →
      ∃ bundle',
        (handleUpdateBet s i j BetField.allocation v).currentBundles[i]? = some bundle' ∧
        bundle'.budget = bundle.budget ∧
        bundle'.total_allocated = jsNumOr bundle.budget 100 ∧
        bundle'.bets.length = bundle.bets.length ∧
        (∀ bet, bundle.bets[j]? = some bet →
          bundle'.bets[j]? = some
            { bet with
              allocation := min (max v 0) (jsNumOr bundle.budget 100)
              potential_payout :=
                min (max v 0) (jsNumOr bundle.budget 100) * bet.payout_multiplier }) ∧
        (∀ (k : ℕ) (bet : HedgeBet), k ≠ j → bundle.bets[k]? = some bet →
          bundle'.bets[k]? = some
            { bet with
              allocation :=
                (jsNumOr bundle.budget 100 - min (max v 0) (jsNumOr bundle.budget 100)) *
                  (if 0 < othersAllocSum j 0 bundle.bets
                   then bet.allocation / othersAllocSum j 0 bundle.bets
                   else 1 / ((bundle.bets.length - 1 : ℕ) : ℚ))
              potential_payout :=
                (jsNumOr bundle.budget 100 - min (max v 0) (jsNumOr bundle.budget 100)) *
                  (if 0 < othersAllocSum j 0 bundle.bets
                   then bet.allocation / othersAllocSum j 0 bundle.bets
                   else 1 / ((bundle.bets.length - 1 : ℕ) : ℚ)) *
                  bet.payout_multiplier })) ∧
    (handleUpdateBet
      { originalBundles := []
        currentBundles := [{ budget := 100
                             bets := [⟨100, 1, 100, 1/2⟩, ⟨0, 1, 0, 1/2⟩, ⟨0, 1, 0, 1/2⟩]
                             total_allocated := 100 }]
        budgetInput := some 100 } 0 0 BetField.allocation 40).currentBundles =
      [{ budget := 100
         bets := [⟨40, 1, 40, 1/2⟩, ⟨30, 1, 30, 1/2⟩, ⟨30, 1, 30, 1/2⟩]
         total_allocated := 100 }] ∧
    (handleUpdateBet
      { originalBundles := []
        currentBundles := [{ budget := 100
                             bets := [⟨60, 1, 60, 1/2⟩, ⟨40, 1, 40, 1/2⟩, ⟨0, 1, 0, 1/2⟩]
                             total_allocated := 100 }]
        budgetInput := some 100 } 0 2 BetField.allocation 20).currentBundles =
      [{ budget := 100
         bets := [⟨48, 1, 48, 1/2⟩, ⟨32, 1, 32, 1/2⟩, ⟨20, 1, 20, 1/2⟩]
         total_allocated := 100 }] := by
  refine ⟨?_, ?_, ?_⟩
  · intro s i j v bundle hb hj
    have hlen : i < s.currentBundles.length := lt_length_of_getElem?_eq_some hb
    have hm : othersCount j 0 bundle.bets = bundle.bets.length - 1 := by
      rw [othersCount_eq j 0 bundle.bets, if_pos (by omega)]
    rw [handleUpdateBet, hb]
    refine ⟨_, List.getElem?_set_eq_of_lt _ (by simpa using hlen), rfl, rfl,
      length_rebalanceBets _ _ _ _ _ 0 bundle.bets, ?_, ?_⟩
    · intro bet hbet
      rw [getElem?_rebalanceBets _ _ _ _ _ 0 bundle.bets j, hbet]
      simp only [Option.map_some', Nat.zero_add, eq_self_iff_true, if_true]
    · intro k bet hk hbet
      rw [getElem?_rebalanceBets _ _ _ _ _ 0 bundle.bets k, hbet]
      simp only [Option.map_some', Nat.zero_add, hm]
      rw [if_neg hk]
  · simp [handleUpdateBet, jsNumOr, rebalanceBets, othersAllocSum, othersCount,
      min_def, max_def]
    norm_num
  · simp [handleUpdateBet, jsNumOr, rebalanceBets, othersAllocSum, othersCount,
      min_def, max_def]
    norm_num

/-- Witness for `updateBet_allocation_redistribution`: its general clause
instantiated on the proportional-redistribution scenario, editing bet 2 of
`[60, 40, 0]` to 20 on budget 100. -/
theorem updateBet_allocation_redistribution_witness :
    ∃ bundle',
      (handleUpdateBet
        { originalBundles := []
          currentBundles := [{ budget := 100
                               bets := [⟨60, 1, 60, 1/2⟩, ⟨40, 1, 40, 1/2⟩, ⟨0, 1, 0, 1/2⟩]
                               total_allocated := 100 }]
          budgetInput := some 100 } 0 2 BetField.allocation 20).currentBundles[0]? = some bundle' ∧
      bundle'.budget = 100 ∧
      bundle'.total_allocated = jsNumOr 100 100 ∧
      bundle'.bets.length = 3 ∧
      (∀ bet, [(⟨60, 1, 60, 1/2⟩ : HedgeBet), ⟨40, 1, 40, 1/2⟩, ⟨0, 1, 0, 1/2⟩][2]? = some bet →
        bundle'.bets[2]? = some
          { bet with
            allocation := min (max (20 : ℚ) 0) (jsNumOr 100 100)
            potential_payout := min (max (20 : ℚ) 0) (jsNumOr 100 100) * bet.payout_multiplier }) :=
  by
  obtain ⟨bundle', h1, h2, h3, h4, h5, _⟩ :=
    updateBet_allocation_redistribution.1
      { originalBundles := []
        currentBundles := [{ budget := 100
                             bets := [⟨60, 1, 60, 1/2⟩, ⟨40, 1, 40, 1/2⟩, ⟨0, 1, 0, 1/2⟩]
                             total_allocated := 100 }]
        budgetInput := some 100 } 0 2 20
      { budget := 100
        bets := [⟨60, 1, 60, 1/2⟩, ⟨40, 1, 40, 1/2⟩, ⟨0, 1, 0, 1/2⟩]
        total_allocated := 100 }
      rfl (by decide)
  exact ⟨bundle', h1, h2, h3, h4, h5⟩

/-- C3 counterexample.  On a bundle whose recorded budget is 0, editing bet
0 to 50 yields allocation 50, not the value 0 that clamping into
`[0, bundle.budget] = [0, 0]` would force: the code clamps into `[0, 100]`
through the `budget || 100` fallback. -/
theorem updateBet_zero_budget_clamp_counterexample :
    (handleUpdateBet
      { originalBundles := []
        currentBundles := [{ budget := 0
                             bets := [⟨0, 1, 0, 1/2⟩, ⟨0, 1, 0, 1/2⟩]
                             total_allocated := 0 }]
        budgetInput := some 100 } 0 0 BetField.allocation 50).currentBundles =
      [{ budget := 0
         bets := [⟨50, 1, 50, 1/2⟩, ⟨50, 1, 50, 1/2⟩]
         total_allocated := 100 }] ∧
    min (max (50 : ℚ) 0) (0 : ℚ) ≠ 50 := by
  constructor
  · simp [handleUpdateBet, jsNumOr, rebalanceBets, othersAllocSum, othersCount,
      min_def, max_def]
    norm_num
  · rw [show max (50 : ℚ) 0 = 50 from by norm_num, show min (50 : ℚ) 0 = 0 from by norm_num]
    norm_num

/-! ### Payout consistency (C2) -/

/-- Every bet of every bundle satisfies
`potential_payout = allocation * payout_multiplier` (exactly; over `ℚ` this
implies the spec's `1e-9` tolerance). -/
def payoutConsistent (bs : List HedgeBundle) : Prop :=
  ∀ b ∈ bs, ∀ bet ∈ b.bets, bet.potential_payout = bet.allocation * bet.payout_multiplier

/-- The rebalancing loop recomputed every payout, so its output is
consistent regardless of the input. -/
theorem payout_eq_of_mem_rebalanceBets (j : ℕ) (v R S : ℚ) (m : ℕ) :
    ∀ (i : ℕ) (l : List HedgeBet) (bet : HedgeBet),
      bet ∈ rebalanceBets j v R S m i l →
      bet.potential_payout = bet.allocation * bet.payout_multiplier
  | _, [], bet, h => absurd h (List.not_mem_nil bet)
  | i, b :: t, bet, h => by
    rw [rebalanceBets] at h
    rcases List.mem_cons.mp h with h1 | h2
    · subst h1
      split_ifs <;> rfl
    · exact payout_eq_of_mem_rebalanceBets j v R S m (i + 1) t bet h2

/-- No trigger touches the pristine snapshot. -/
theorem originalBundles_applyTrigger (s : ResultsState) (t : Trigger) :
    (applyTrigger s t).originalBundles = s.originalBundles := by
  cases t with
  | updateBet i j f v =>
    rw [applyTrigger, handleUpdateBet]
    split
    · rfl
    · split
      · rfl
      · split <;> rfl
  | updateBudget v =>
    rw [applyTrigger, handleUpdateBudget.eq_def]
    split
    · rfl
    · split
      · rfl
      · dsimp only
        split_ifs <;> rfl
  | reset i =>
    rw [applyTrigger, handleReset]
    split_ifs with h
    · rfl
    · split <;> rfl

/-- One trigger preserves payout consistency of the working copy, given
consistency of the pristine snapshot (used by reset). -/
theorem payoutConsistent_applyTrigger (s : ResultsState) (t : Trigger)
    (hc : payoutConsistent s.currentBundles) (ho : payoutConsistent s.originalBundles) :
    payoutConsistent (applyTrigger s t).currentBundles := by
  cases t with
  | updateBet i j f v =>
    rw [applyTrigger, handleUpdateBet]
    split
    · exact hc
    · rename_i bundle hsc
      split
      · intro b hb bet hbet
        rcases List.mem_or_eq_of_mem_set hb with hmem | heq
        · exact hc b hmem bet hbet
        · subst heq
          exact payout_eq_of_mem_rebalanceBets _ _ _ _ _ 0 bundle.bets bet hbet
      · split
        · exact hc
        · rename_i targetBet hbt
          intro b hb bet hbet
          rcases List.mem_or_eq_of_mem_set hb with hmem | heq
          · exact hc b hmem bet hbet
          · subst heq
            rcases List.mem_or_eq_of_mem_set hbet with hmem2 | heq2
            · exact hc bundle (List.getElem?_mem hsc) bet hmem2
            · subst heq2
              rfl
  | updateBudget v =>
    rw [applyTrigger, handleUpdateBudget.eq_def]
    split
    · exact hc
    · split
      · exact hc
      · dsimp only
        split_ifs with h1 h2
        · exact hc
        · exact hc
        · intro b hb bet hbet
          rw [List.mem_map] at hb
          obtain ⟨b1, hb1, hb1e⟩ := hb
          subst hb1e
          simp only [List.mem_map] at hbet
          obtain ⟨bet1, hbet1, hbet1e⟩ := hbet
          subst hbet1e
          have hc1 := hc b1 hb1 bet1 hbet1
          dsimp only
          rw [hc1]
          ring
  | reset i =>
    rw [applyTrigger, handleReset]
    split_ifs with h
    · exact hc
    · split
      · exact hc
      · rename_i pristine hso
        intro b hb bet hbet
        rcases List.mem_or_eq_of_mem_set hb with hmem | heq
        · exact hc b hmem bet hbet
        · subst heq
          have hpr : ∀ bet1 ∈ pristine.bets,
              bet1.potential_payout = bet1.allocation * bet1.payout_multiplier :=
            ho pristine (List.getElem?_mem hso)
          split_ifs at hbet with hcond
          · rw [List.mem_map] at hbet
            obtain ⟨bet1, hbet1, hbet1e⟩ := hbet
            subst hbet1e
            have hpr1 := hpr bet1 hbet1
            dsimp only
            rw [hpr1]
            ring
          · exact hpr bet hbet

/-- C2.  For a portfolio loaded with a payout-consistent pristine snapshot,
after any sequence of triggers (single-bet allocation edits, multiplier
edits, global budget changes, bundle resets — hence after every individual
trigger, since the sequence is arbitrary) every bet of the working copy
satisfies `potential_payout = allocation * payout_multiplier` exactly, and
in particular within the spec's `1e-9` tolerance. -/
theorem triggers_preserve_payout_consistency (d : StoredData) (ts : List Trigger)
    (h : payoutConsistent d.bundles) :
    payoutConsistent (applyTriggers (loadState d) ts).currentBundles ∧
    ∀ b ∈ (applyTriggers (loadState d) ts).currentBundles, ∀ bet ∈ b.bets,
      |bet.potential_payout - bet.allocation * bet.payout_multiplier| < 1 / 1000000000 := by
  have main : ∀ (ts : List Trigger) (s : ResultsState),
      payoutConsistent s.currentBundles → payoutConsistent s.originalBundles →
      payoutConsistent (applyTriggers s ts).currentBundles := by
    intro ts
    induction ts with
    | nil => intro s hc ho; exact hc
    | cons t rest ih =>
      intro s hc ho
      rw [applyTriggers, List.foldl_cons]
      exact ih (applyTrigger s t)
        (payoutConsistent_applyTrigger s t hc ho)
        ((originalBundles_applyTrigger s t).symm ▸ ho)
  have hmain := main ts (loadState d) h h
  refine ⟨hmain, ?_⟩
  intro b hb bet hbet
  rw [hmain b hb bet hbet]
  simp

/-- Witness for `triggers_preserve_payout_consistency`: a consistent
one-bundle portfolio stays consistent through a budget change followed by
an allocation edit and a reset. -/
theorem triggers_preserve_payout_consistency_witness :
    payoutConsistent
      (applyTriggers
        (loadState { bundles := [{ budget := 100
                                   bets := [⟨50, 2, 100, 1/2⟩, ⟨50, 1, 50, 1/2⟩]
                                   total_allocated := 100 }]
                     total_budget := 100 })
        [Trigger.updateBudget (some 200),
         Trigger.updateBet 0 0 BetField.allocation 30,
         Trigger.reset 0]).currentBundles :=
  (triggers_preserve_payout_consistency _ _
    (by
      intro b hb bet hbet
      fin_cases hb
      fin_cases hbet <;> norm_num)).1

/-! ### Trigger B scaling (C4, C10) -/

/-- C4 (amended).  When every loaded bundle shares the first bundle's
positive budget `B` (the engine's shared-budget design assumption), a
Trigger B change to a positive budget `v` multiplies every bundle's
allocations and payouts by the single factor `v / B`, sets every budget to
`v`, and preserves every bet's `allocation / budget` ratio; the spec's
rescale scenario (budget 100, allocations [70, 30], new budget 200 giving
[140, 60] with payouts doubled) holds.  Without the shared-budget
hypothesis the ratio-preservation part of the original claim is false, see
`updateBudget_unequal_budgets_counterexample`. -/
theorem updateBudget_scales_shared_budget :
    (∀ (s : ResultsState) (v : ℚ) (b0 : HedgeBundle) (rest : List HedgeBundle),
      s.currentBundles = b0 :: rest → 0 < b0.budget →
      (∀ b ∈ s.currentBundles, b.budget = b0.budget) → 0 < v →
      (handleUpdateBudget s (some v)).currentBundles =
        s.currentBundles.map (fun b =>
          { b with
            budget := v
            bets := b.bets.map fun bet =>
              { bet with
                allocation := bet.allocation * (v / b0.budget)
                potential_payout := bet.potential_payout * (v / b0.budget) } }) ∧
      (∀ (k t : ℕ) (b b' : HedgeBundle) (bet bet' : HedgeBet),
        s.currentBundles[k]? = some b →
        (handleUpdateBudget s (some v)).currentBundles[k]? = some b' →
        b.bets[t]? = some bet → b'.bets[t]? = some bet' →
        bet'.allocation / b'.budget = bet.allocation / b.budget)) ∧
    (handleUpdateBudget
      { originalBundles := []
        currentBundles := [{ budget := 100
                             bets := [⟨70, 2, 140, 1/2⟩, ⟨30, 1, 30, 1/2⟩]
                             total_allocated := 100 }]
        budgetInput := some 100 } (some 200)).currentBundles =
      [{ budget := 200
         bets := [⟨140, 2, 280, 1/2⟩, ⟨60, 1, 60, 1/2⟩]
         total_allocated := 100 }] := by
  constructor
  · intro s v b0 rest hcons hb0 hshared hv
    have hb0ne : b0.budget ≠ 0 := ne_of_gt hb0
    have hmap : (handleUpdateBudget s (some v)).currentBundles =
        s.currentBundles.map (fun b =>
          { b with
            budget := v
            bets := b.bets.map fun bet =>
              { bet with
                allocation := bet.allocation * (v / b0.budget)
                potential_payout := bet.potential_payout * (v / b0.budget) } }) := by
      rw [handleUpdateBudget.eq_def, hcons]
      dsimp only
      rw [if_neg (not_le.mpr hv), jsNumOr_of_ne _ _ hb0ne, if_neg (not_le.mpr hb0)]
    refine ⟨hmap, ?_⟩
    intro k t b b' bet bet' hk hk' ht ht'
    rw [hmap, List.getElem?_map, hk, Option.map_some'] at hk'
    have hb' : b' = { b with
        budget := v
        bets := b.bets.map fun bet =>
          { bet with
            allocation := bet.allocation * (v / b0.budget)
            potential_payout := bet.potential_payout * (v / b0.budget) } } :=
      (Option.some.injEq _ _ ▸ hk').symm
    subst hb'
    dsimp only at ht'
    rw [List.getElem?_map, ht, Option.map_some'] at ht'
    have hbet' : bet' = { bet with
        allocation := bet.allocation * (v / b0.budget)
        potential_payout := bet.potential_payout * (v / b0.budget) } :=
      (Option.some.injEq _ _ ▸ ht').symm
    subst hbet'
    have hbb : b.budget = b0.budget := hshared b (List.getElem?_mem hk)
    dsimp only
    rw [hbb]
    field_simp
    ring
  · simp [handleUpdateBudget, jsNumOr]
    norm_num

/-- Witness for `updateBudget_scales_shared_budget`: its general clause
instantiated on a one-bundle portfolio with budget 100 rescaled to 200. -/
theorem updateBudget_scales_shared_budget_witness :
    (handleUpdateBudget
      { originalBundles := []
        currentBundles := [{ budget := 100
                             bets := [⟨70, 2, 140, 1/2⟩, ⟨30, 1, 30, 1/2⟩]
                             total_allocated := 100 }]
        budgetInput := some 100 } (some 200)).currentBundles =
      [({ budget := 100
          bets := [⟨70, 2, 140, 1/2⟩, ⟨30, 1, 30, 1/2⟩]
          total_allocated := 100 } : HedgeBundle)].map (fun b =>
        { b with
          budget := 200
          bets := b.bets.map fun bet =>
            { bet with
              allocation := bet.allocation * (200 / 100)
              potential_payout := bet.potential_payout * (200 / 100) } }) :=
  (updateBudget_scales_shared_budget.1
    { originalBundles := []
      currentBundles := [{ budget := 100
                           bets := [⟨70, 2, 140, 1/2⟩, ⟨30, 1, 30, 1/2⟩]
                           total_allocated := 100 }]
      budgetInput := some 100 } 200
    { budget := 100
      bets := [⟨70, 2, 140, 1/2⟩, ⟨30, 1, 30, 1/2⟩]
      total_allocated := 100 } [] rfl (by norm_num)
    (by
      intro b hb
      fin_cases hb
      rfl)
    (by norm_num)).1

/-- C4 counterexample.  With two bundles of unequal budgets (100 and 50),
setting the budget to 200 scales everything by the first bundle's factor 2:
the second bundle's bet moves from allocation 50 of budget 50 (ratio 1) to
allocation 100 of budget 200 (ratio 1/2) — `allocation / budget` is not
preserved for every bundle, refuting the claim as stated. -/
theorem updateBudget_unequal_budgets_counterexample :
    (handleUpdateBudget
      { originalBundles := []
        currentBundles := [{ budget := 100
                             bets := [⟨50, 1, 50, 1/2⟩]
                             total_allocated := 100 },
                           { budget := 50
                             bets := [⟨50, 1, 50, 1/2⟩]
                             total_allocated := 50 }]
        budgetInput := some 100 } (some 200)).currentBundles =
      [{ budget := 200
         bets := [⟨100, 1, 100, 1/2⟩]
         total_allocated := 100 },
       { budget := 200
         bets := [⟨100, 1, 100, 1/2⟩]
         total_allocated := 50 }] ∧
    (100 : ℚ) / 200 ≠ 50 / 50 := by
  constructor
  · simp [handleUpdateBudget, jsNumOr]
    norm_num
  · norm_num

/-- C10.  Trigger B with a positive new budget `v` is not rejected when the
first bundle's recorded budget is 0 (or missing, which reads identically):
the old budget falls back to 100 and every bundle is scaled by `v / 100`;
more generally, for any nonnegative first budget the update is applied with
scale `v / (budget || 100)`, and the `oldBudget <= 0` guard makes the
trigger a no-op on the bundles exactly when the first bundle's recorded
budget is strictly negative. -/
theorem updateBudget_zero_budget_fallback :
    (∀ (s : ResultsState) (v : ℚ) (b0 : HedgeBundle) (rest : List HedgeBundle),
      s.currentBundles = b0 :: rest → b0.budget = 0 → 0 < v →
      (handleUpdateBudget s (some v)).currentBundles =
        s.currentBundles.map (fun b =>
          { b with
            budget := v
            bets := b.bets.map fun bet =>
              { bet with
                allocation := bet.allocation * (v / 100)
                potential_payout := bet.potential_payout * (v / 100) } })) ∧
    (∀ (s : ResultsState) (v : ℚ) (b0 : HedgeBundle) (rest : List HedgeBundle),
      s.currentBundles = b0 :: rest → 0 ≤ b0.budget → 0 < v →
      (handleUpdateBudget s (some v)).currentBundles =
        s.currentBundles.map (fun b =>
          { b with
            budget := v
            bets := b.bets.map fun bet =>
              { bet with
                allocation := bet.allocation * (v / jsNumOr b0.budget 100)
                potential_payout := bet.potential_payout * (v / jsNumOr b0.budget 100) } })) ∧
    (∀ (s : ResultsState) (v : ℚ) (b0 : HedgeBundle) (rest : List HedgeBundle),
      s.currentBundles = b0 :: rest → b0.budget < 0 →
      (handleUpdateBudget s (some v)).currentBundles = s.currentBundles) := by
  have happly : ∀ (s : ResultsState) (v : ℚ) (b0 : HedgeBundle) (rest : List HedgeBundle),
      s.currentBundles = b0 :: rest → 0 ≤ b0.budget → 0 < v →
      (handleUpdateBudget s (some v)).currentBundles =
        s.currentBundles.map (fun b =>
          { b with
            budget := v
            bets := b.bets.map fun bet =>
              { bet with
                allocation := bet.allocation * (v / jsNumOr b0.budget 100)
                potential_payout := bet.potential_payout * (v / jsNumOr b0.budget 100) } }) := by
    intro s v b0 rest hcons hb0 hv
    have hpos : 0 < jsNumOr b0.budget 100 := by
      rw [jsNumOr]
      split_ifs with h
      · norm_num
      · exact lt_of_le_of_ne hb0 (Ne.symm h)
    rw [handleUpdateBudget.eq_def, hcons]
    dsimp only
    rw [if_neg (not_le.mpr hv), if_neg (not_le.mpr hpos)]
  refine ⟨?_, happly, ?_⟩
  · intro s v b0 rest hcons hb0 hv
    have h := happly s v b0 rest hcons (le_of_eq hb0.symm) hv
    rw [h, hb0, jsNumOr_zero]
  · intro s v b0 rest hcons hb0
    rw [handleUpdateBudget.eq_def, hcons]
    dsimp only
    split_ifs with h1 h2
    · rfl
    · rfl
    · exfalso
      rw [jsNumOr_of_ne _ _ (ne_of_lt hb0)] at h2
      exact h2 (le_of_lt hb0)

/-- Witness for `updateBudget_zero_budget_fallback`: a first bundle with
recorded budget 0 is rescaled by `200 / 100 = 2` rather than rejected. -/
theorem updateBudget_zero_budget_fallback_witness :
    (handleUpdateBudget
      { originalBundles := []
        currentBundles := [{ budget := 0
                             bets := [⟨50, 1, 50, 1/2⟩]
                             total_allocated := 50 }]
        budgetInput := some 100 } (some 200)).currentBundles =
      [({ budget := 0
          bets := [⟨50, 1, 50, 1/2⟩]
          total_allocated := 50 } : HedgeBundle)].map (fun b =>
        { b with
          budget := 200
          bets := b.bets.map fun bet =>
            { bet with
              allocation := bet.allocation * (200 / 100)
              potential_payout := bet.potential_payout * (200 / 100) } }) :=
  updateBudget_zero_budget_fallback.1
    { originalBundles := []
      currentBundles := [{ budget := 0
                           bets := [⟨50, 1, 50, 1/2⟩]
                           total_allocated := 50 }]
      budgetInput := some 100 } 200
    { budget := 0
      bets := [⟨50, 1, 50, 1/2⟩]
      total_allocated := 50 } [] rfl rfl (by norm_num)

/-! ### Trigger C reset (C7, C8) -/

/-- C7 (amended).  `handleReset` is a no-op when no pristine snapshot
exists.  Otherwise it replaces the working bundle at the index by the
pristine bundle, rescaled when the intended budget
(`parseFloat(budgetInput) || 100`) differs from the *effective* pristine
budget `pristine.budget || 100` and the latter is positive: the restored
budget becomes the intended budget and allocations and payouts scale by
`intended / (pristine.budget || 100)`.  In particular, with a positive
pristine budget the original claim's scaling rule holds verbatim; but a
pristine budget of 0 is treated as 100 and does *not* suppress scaling
(see `reset_zero_pristine_budget_counterexample`), no scaling happens
exactly when the intended budget equals the effective pristine budget or
the pristine budget is negative. -/
theorem reset_restores_pristine_with_rescale :
    (∀ (s : ResultsState) (i : ℕ), s.originalBundles = [] → handleReset s i = s) ∧
    (∀ (s : ResultsState) (i : ℕ) (pristine : HedgeBundle),
      s.originalBundles[i]? = some pristine →
      (handleReset s i).currentBundles =
        s.currentBundles.set i
          (if intendedBudget s ≠ jsNumOr pristine.budget 100 ∧ 0 < jsNumOr pristine.budget 100 then
            { pristine with
              budget := intendedBudget s
              bets := pristine.bets.map fun b =>
                { b with
                  allocation := b.allocation * (intendedBudget s / jsNumOr pristine.budget 100)
                  potential_payout :=
                    b.potential_payout * (intendedBudget s / jsNumOr pristine.budget 100) } }
          else pristine) ∧
      (handleReset s i).originalBundles = s.originalBundles) ∧
    (∀ (s : ResultsState) (i : ℕ) (pristine : HedgeBundle),
      s.originalBundles[i]? = some pristine → 0 < pristine.budget →
      intendedBudget s ≠ pristine.budget →
      (handleReset s i).currentBundles =
        s.currentBundles.set i
          { pristine with
            budget := intendedBudget s
            bets := pristine.bets.map fun b =>
              { b with
                allocation := b.allocation * (intendedBudget s / pristine.budget)
                potential_payout :=
                  b.potential_payout * (intendedBudget s / pristine.budget) } }) := by
  have hmain : ∀ (s : ResultsState) (i : ℕ) (pristine : HedgeBundle),
      s.originalBundles[i]? = some pristine →
      (handleReset s i).currentBundles =
        s.currentBundles.set i
          (if intendedBudget s ≠ jsNumOr pristine.budget 100 ∧ 0 < jsNumOr pristine.budget 100 then
            { pristine with
              budget := intendedBudget s
              bets := pristine.bets.map fun b =>
                { b with
                  allocation := b.allocation * (intendedBudget s / jsNumOr pristine.budget 100)
                  potential_payout :=
                    b.potential_payout * (intendedBudget s / jsNumOr pristine.budget 100) } }
          else pristine) := by
    intro s i pristine hso
    have hne : s.originalBundles ≠ [] := by
      intro h
      rw [h, List.getElem?_nil] at hso
      exact Option.noConfusion hso
    rw [handleReset, if_neg hne, hso]
  refine ⟨?_, fun s i pristine hso => ⟨hmain s i pristine hso, ?_⟩, ?_⟩
  · intro s i h
    rw [handleReset, if_pos h]
  · rw [handleReset]
    split_ifs
    · rfl
    · split <;> rfl
  · intro s i pristine hso hpos hne
    rw [hmain s i pristine hso, jsNumOr_of_ne _ _ (ne_of_gt hpos),
      if_pos ⟨hne, hpos⟩]

/-- Witness for `reset_restores_pristine_with_rescale`: a pristine bundle
with budget 100, reset while the budget input reads 200, comes back with
budget 200 and doubled allocations and payouts. -/
theorem reset_restores_pristine_with_rescale_witness :
    (handleReset
      { originalBundles := [{ budget := 100
                              bets := [⟨70, 2, 140, 1/2⟩]
                              total_allocated := 100 }]
        currentBundles := [{ budget := 100
                             bets := [⟨10, 2, 20, 1/2⟩]
                             total_allocated := 100 }]
        budgetInput := some 200 } 0).currentBundles =
      [({ budget := 100
          bets := [⟨10, 2, 20, 1/2⟩]
          total_allocated := 100 } : HedgeBundle)].set 0
        { budget :=
            intendedBudget
              { originalBundles := [{ budget := 100
                                      bets := [⟨70, 2, 140, 1/2⟩]
                                      total_allocated := 100 }]
                currentBundles := [{ budget := 100
                                     bets := [⟨10, 2, 20, 1/2⟩]
                                     total_allocated := 100 }]
                budgetInput := some 200 }
          bets := [(⟨70, 2, 140, 1/2⟩ : HedgeBet)].map fun b =>
            { b with
              allocation := b.allocation *
                (intendedBudget
                  { originalBundles := [{ budget := 100
                                          bets := [⟨70, 2, 140, 1/2⟩]
                                          total_allocated := 100 }]
                    currentBundles := [{ budget := 100
                                         bets := [⟨10, 2, 20, 1/2⟩]
                                         total_allocated := 100 }]
                    budgetInput := some 200 } / (100 : ℚ))
              potential_payout := b.potential_payout *
                (intendedBudget
                  { originalBundles := [{ budget := 100
                                          bets := [⟨70, 2, 140, 1/2⟩]
                                          total_allocated := 100 }]
                    currentBundles := [{ budget := 100
                                         bets := [⟨10, 2, 20, 1/2⟩]
                                         total_allocated := 100 }]
                    budgetInput := some 200 } / (100 : ℚ)) }
          total_allocated := 100 } :=
  reset_restores_pristine_with_rescale.2.2
    { originalBundles := [{ budget := 100
                            bets := [⟨70, 2, 140, 1/2⟩]
                            total_allocated := 100 }]
      currentBundles := [{ budget := 100
                           bets := [⟨10, 2, 20, 1/2⟩]
                           total_allocated := 100 }]
      budgetInput := some 200 } 0
    { budget := 100
      bets := [⟨70, 2, 140, 1/2⟩]
      total_allocated := 100 }
    rfl (by norm_num)
    (by
      rw [intendedBudget]
      norm_num)

/-- C7 counterexample.  A pristine bundle with budget 0 is reset while the
budget input reads 50: the code treats the pristine budget as 100 and
rescales by `50 / 100`, producing budget 50 and halved allocations, while
the claim mandates no scaling (the restored bundle should have stayed at
budget 0 with allocation 10). -/
theorem reset_zero_pristine_budget_counterexample :
    (handleReset
      { originalBundles := [{ budget := 0
                              bets := [⟨10, 2, 20, 1/2⟩]
                              total_allocated := 10 }]
        currentBundles := [{ budget := 0
                             bets := [⟨10, 2, 20, 1/2⟩]
                             total_allocated := 10 }]
        budgetInput := some 50 } 0).currentBundles =
      [{ budget := 50
         bets := [⟨5, 2, 10, 1/2⟩]
         total_allocated := 10 }] ∧
    ({ budget := 50
       bets := [⟨5, 2, 10, 1/2⟩]
       total_allocated := 10 } : HedgeBundle) ≠
      { budget := 0
        bets := [⟨10, 2, 20, 1/2⟩]
        total_allocated := 10 } := by
  constructor
  · simp [handleReset, intendedBudget, jsNumOr]
    norm_num
  · simp only [ne_eq, HedgeBundle.mk.injEq, not_and]
    intro h
    exact absurd h (by norm_num)

/-- C8 (amended).  Reset immediately after loading restores the bundle to
its pristine state exactly, provided the budget-input value initialised at
load (`metrics.total_budget` rounded by `toFixed(0)`, with 100 substituted
when it is 0) equals the bundle's effective pristine budget
(`budget || 100`) — in particular whenever the stored `total_budget` equals
the bundle's positive integer budget.  Without that proviso the `toFixed(0)`
rounding makes reset rescale, see `reset_after_load_counterexample`. -/
theorem reset_after_load_restores_pristine (d : StoredData) (i : ℕ) (b : HedgeBundle)
    (hb : d.bundles[i]? = some b)
    (hmatch : (if jsToFixed0 d.total_budget = 0 then 100 else jsToFixed0 d.total_budget) =
      jsNumOr b.budget 100) :
    (handleReset (loadState d) i).currentBundles = d.bundles ∧
    (handleReset (loadState d) i).currentBundles[i]? = some b := by
  have hint : intendedBudget (loadState d) =
      (if jsToFixed0 d.total_budget = 0 then 100 else jsToFixed0 d.total_budget) := rfl
  have hset :=
    (reset_restores_pristine_with_rescale.2.1 (loadState d) i b
      (by exact hb)).1
  rw [hint, hmatch] at hset
  rw [if_neg (fun hc => hc.1 rfl)] at hset
  have hcur : (loadState d).currentBundles = d.bundles := rfl
  rw [hcur] at hset
  rw [hset, set_eq_self_of_getElem?_eq_some d.bundles i b hb]
  exact ⟨rfl, hb⟩

/-- Witness for `reset_after_load_restores_pristine`: a portfolio with one
bundle of integral budget 100 and matching stored `total_budget` reloads to
itself on reset. -/
theorem reset_after_load_restores_pristine_witness :
    (handleReset
      (loadState { bundles := [{ budget := 100
                                 bets := [⟨70, 2, 140, 1/2⟩, ⟨30, 1, 30, 1/2⟩]
                                 total_allocated := 100 }]
                   total_budget := 100 }) 0).currentBundles =
      [{ budget := 100
         bets := [⟨70, 2, 140, 1/2⟩, ⟨30, 1, 30, 1/2⟩]
         total_allocated := 100 }] :=
  (reset_after_load_restores_pristine
    { bundles := [{ budget := 100
                    bets := [⟨70, 2, 140, 1/2⟩, ⟨30, 1, 30, 1/2⟩]
                    total_allocated := 100 }]
      total_budget := 100 } 0
    { budget := 100
      bets := [⟨70, 2, 140, 1/2⟩, ⟨30, 1, 30, 1/2⟩]
      total_allocated := 100 }
    rfl
    (by
      rw [show jsToFixed0 (100 : ℚ) = 100 from by norm_num [jsToFixed0, round_eq],
        jsNumOr_of_ne _ _ (by norm_num)]
      norm_num)).1

/-- C8 counterexample.  A loaded portfolio whose single bundle has the
non-integer budget `201/2 = 100.5` (with matching stored `total_budget`)
initialises the budget input to the rounded string `"101"`; resetting the
bundle immediately after loading therefore rescales it to budget 101 with
allocation 101 — off from the pristine 100.5 by 0.5, far outside
floating-point tolerance. -/
theorem reset_after_load_counterexample :
    (handleReset
      (loadState { bundles := [{ budget := 201/2
                                 bets := [⟨201/2, 1, 201/2, 1/2⟩]
                                 total_allocated := 201/2 }]
                   total_budget := 201/2 }) 0).currentBundles =
      [{ budget := 101
         bets := [⟨101, 1, 101, 1/2⟩]
         total_allocated := 201/2 }] ∧
    ¬ |(101 : ℚ) - 201/2| < 1/1000000 := by
  constructor
  · simp [handleReset, loadState, intendedBudget, jsToFixed0, jsNumOr, round_eq]
    norm_num
  · rw [show (101 : ℚ) - 201/2 = 1/2 from by norm_num, abs_of_nonneg (by norm_num)]
    norm_num

/-! ### Invalid-input behaviour (C9) -/

/-- C9 (amended).  Invalid budget input — a non-numeric string, a
non-positive parsed value, or no bundles loaded — leaves every bundle of
the working portfolio unchanged (the triggers are total functions, so
nothing is raised).  An allocation edit on a bundle with no bets likewise
raises nothing and leaves the bundle's budget, its (empty) bet list and
every other bundle unchanged, but it is not a complete no-op: it sets that
bundle's `total_allocated` to its budget (100 when the recorded budget is
0), see `updateBet_empty_bets_counterexample`. -/
theorem invalid_input_noop :
    (∀ (s : ResultsState),
      (handleUpdateBudget s none).currentBundles = s.currentBundles) ∧
    (∀ (s : ResultsState) (v : ℚ), v ≤ 0 →
      (handleUpdateBudget s (some v)).currentBundles = s.currentBundles) ∧
    (∀ (s : ResultsState) (v : Option ℚ), s.currentBundles = [] →
      (handleUpdateBudget s v).currentBundles = s.currentBundles) ∧
    (∀ (s : ResultsState) (i j : ℕ) (v : ℚ) (bundle : HedgeBundle),
      s.currentBundles[i]? = some bundle → bundle.bets = [] →
      (handleUpdateBet s i j BetField.allocation v).currentBundles =
        s.currentBundles.set i
          { bundle with total_allocated := jsNumOr bundle.budget 100 }) := by
  refine ⟨fun s => rfl, ?_, ?_, ?_⟩
  · intro s v hv
    rw [handleUpdateBudget.eq_def]
    dsimp only
    split
    · rfl
    · rw [if_pos hv]
  · intro s v hnil
    cases v with
    | none => rfl
    | some nb =>
      rw [handleUpdateBudget.eq_def, hnil]
  · intro s i j v bundle hb hbets
    rw [handleUpdateBet, hb]
    dsimp only
    rw [hbets]
    rfl

/-- Witness for `invalid_input_noop`: a non-positive budget input on a
loaded portfolio changes no bundle. -/
theorem invalid_input_noop_witness :
    (handleUpdateBudget
      { originalBundles := []
        currentBundles := [{ budget := 100
                             bets := [⟨70, 2, 140, 1/2⟩]
                             total_allocated := 100 }]
        budgetInput := some 100 } (some (-5))).currentBundles =
      [{ budget := 100
         bets := [⟨70, 2, 140, 1/2⟩]
         total_allocated := 100 }] :=
  invalid_input_noop.2.1
    { originalBundles := []
      currentBundles := [{ budget := 100
                           bets := [⟨70, 2, 140, 1/2⟩]
                           total_allocated := 100 }]
      budgetInput := some 100 } (-5) (by norm_num)

/-- C9 counterexample.  An allocation edit on a bundle with no bets is not
a silent no-op: on a bundle with budget 50, empty bets and
`total_allocated = 10`, the edit leaves budget and bets alone but rewrites
`total_allocated` to 50, so the working portfolio changes. -/
theorem updateBet_empty_bets_counterexample :
    (handleUpdateBet
      { originalBundles := []
        currentBundles := [{ budget := 50, bets := [], total_allocated := 10 }]
        budgetInput := some 100 } 0 0 BetField.allocation 20).currentBundles =
      [{ budget := 50, bets := [], total_allocated := 50 }] ∧
    [({ budget := 50, bets := [], total_allocated := 50 } : HedgeBundle)] ≠
      [{ budget := 50, bets := [], total_allocated := 10 }] := by
  constructor
  · simp [handleUpdateBet, jsNumOr, rebalanceBets, othersAllocSum, othersCount]
  · intro h
    norm_num [List.cons.injEq, HedgeBundle.mk.injEq] at h

/-! ### Fold/sum conversions for the metrics proofs -/

theorem foldl_add_sum {M : Type} [AddCommMonoid M] :
    ∀ (l : List M) (c : M), l.foldl (· + ·) c = c + l.sum
  | [], c => by simp
  | x :: t, c => by
    rw [List.foldl_cons, foldl_add_sum t (c + x), List.sum_cons, add_assoc]

theorem foldl_add_eq_sum {M α : Type} [AddCommMonoid M] (f : α → M) :
    ∀ (l : List α) (c : M), l.foldl (fun s x => s + f x) c = c + (l.map f).sum
  | [], c => by simp
  | x :: t, c => by
    rw [List.foldl_cons, foldl_add_eq_sum f t (c + f x), List.map_cons, List.sum_cons,
      add_assoc]

theorem map_getD_sum {M α : Type} [AddCommMonoid M] (f : α → M) (d : α) :
    ∀ l : List α, (l.map f).sum = ∑ k ∈ Finset.range l.length, f (l.getD k d)
  | [] => by simp
  | x :: t => by
    rw [List.map_cons, List.sum_cons, map_getD_sum f d t, List.length_cons,
      Finset.sum_range_succ']
    simp only [List.getD_cons_succ, List.getD_cons_zero]
    rw [add_comm]

theorem sum_map_div {K α : Type} [DivisionRing K] (f : α → K) (c : K) :
    ∀ l : List α, (l.map fun x => f x / c).sum = (l.map f).sum / c
  | [] => by simp
  | x :: t => by
    rw [List.map_cons, List.sum_cons, sum_map_div f c t, List.map_cons, List.sum_cons,
      add_div]

theorem getD_map {α β : Type} (f : α → β) (l : List α) (k : ℕ) (d : α) (e : β)
    (h : k < l.length) : (l.map f).getD k e = f (l.getD k d) := by
  rw [List.getD_eq_getElem?_getD, List.getElem?_map, List.getD_eq_getElem?_getD,
    List.getElem?_eq_getElem h]
  rfl

theorem getD_zip {α β : Type} :
    ∀ (l1 : List α) (l2 : List β) (k : ℕ) (d1 : α) (d2 : β),
      k < l1.length → k < l2.length →
      (l1.zip l2).getD k (d1, d2) = (l1.getD k d1, l2.getD k d2)
  | [], _, k, _, _, h1, _ => absurd h1 (by simp)
  | _ :: _, [], k, _, _, _, h2 => absurd h2 (by simp)
  | x :: t1, y :: t2, 0, d1, d2, _, _ => rfl
  | x :: t1, y :: t2, k + 1, d1, d2, h1, h2 => by
    rw [List.zip_cons_cons, List.getD_cons_succ, List.getD_cons_succ, List.getD_cons_succ]
    exact getD_zip t1 t2 k d1 d2 (by simpa using h1) (by simpa using h2)

theorem getD_mem {α : Type} (l : List α) (k : ℕ) (d : α) (h : k < l.length) :
    l.getD k d ∈ l := by
  rw [List.getD_eq_getElem?_getD, List.getElem?_eq_getElem h]
  exact List.getElem_mem h

/-- The variance accumulator of `calculateRiskScore`, as an indexed sum. -/
theorem variance_foldl_eq (bets : List HedgeBet) (c : ℚ) :
    ((((bets.map HedgeBet.allocation).map fun a => a / c).zip
        (bets.map effectivePrice)).foldl
      (fun sum wp => sum + wp.1 * wp.1 * wp.2 * (1 - wp.2)) 0) =
    ∑ k ∈ Finset.range bets.length,
      ((bets.getD k defaultBet).allocation / c) ^ 2 *
        effectivePrice (bets.getD k defaultBet) *
        (1 - effectivePrice (bets.getD k defaultBet)) := by
  rw [foldl_add_eq_sum (fun wp : ℚ × ℚ => wp.1 * wp.1 * wp.2 * (1 - wp.2)), zero_add,
    map_getD_sum (fun wp : ℚ × ℚ => wp.1 * wp.1 * wp.2 * (1 - wp.2)) ((0 : ℚ), (0 : ℚ))]
  rw [show (((bets.map HedgeBet.allocation).map fun a => a / c).zip
      (bets.map effectivePrice)).length = bets.length by simp]
  refine Finset.sum_congr rfl fun k hk => ?_
  have hk' : k < bets.length := Finset.mem_range.mp hk
  rw [getD_zip _ _ k 0 0 (by simpa using hk') (by simpa using hk')]
  rw [getD_map (fun a => a / c) (bets.map HedgeBet.allocation) k 0 0 (by simpa using hk'),
    getD_map HedgeBet.allocation bets k defaultBet 0 hk',
    getD_map effectivePrice bets k defaultBet 0 hk']
  ring

/-- The average-distance accumulator of `calculateRiskScore`, as an
indexed sum. -/
theorem avg_dist_foldl_eq (bets : List HedgeBet) :
    ((bets.map effectivePrice).foldl (fun sum p => sum + |p - 1/2|) 0) =
    ∑ k ∈ Finset.range bets.length, |effectivePrice (bets.getD k defaultBet) - 1/2| := by
  rw [foldl_add_eq_sum (fun p : ℚ => |p - 1/2|), zero_add,
    map_getD_sum (fun p : ℚ => |p - 1/2|) (0 : ℚ), List.length_map]
  refine Finset.sum_congr rfl fun k hk => ?_
  rw [getD_map effectivePrice bets k defaultBet 0 (Finset.mem_range.mp hk)]

/-- `calculateRiskScore` computes exactly the spec's closed formula. -/
theorem calculateRiskScore_eq_spec (bets : List HedgeBet) :
    calculateRiskScore bets = score_bundle_risk_spec bets := by
  by_cases hnil : bets = []
  · subst hnil
    rw [calculateRiskScore, score_bundle_risk_spec]
    simp
  · have hlen0 : bets.length ≠ 0 := fun h => hnil (List.eq_nil_of_length_eq_zero h)
    have hT : ((bets.map HedgeBet.allocation).foldl (· + ·) 0 : ℚ) =
        ∑ k ∈ Finset.range bets.length, (bets.getD k defaultBet).allocation := by
      rw [foldl_add_sum, zero_add, map_getD_sum HedgeBet.allocation defaultBet]
    rw [calculateRiskScore, score_bundle_risk_spec]
    dsimp only
    rw [if_neg hnil, hT]
    by_cases hTle :
        (∑ k ∈ Finset.range bets.length, (bets.getD k defaultBet).allocation) ≤ 0
    · rw [if_pos hTle, if_pos (Or.inr hTle)]
    · rw [if_neg hTle, if_neg (fun hor => hor.elim hlen0 hTle)]
      rw [variance_foldl_eq bets, avg_dist_foldl_eq bets, List.length_map]

/-- Bounds for the risk score when every recorded price lies in `[0, 1]`. -/
theorem calculateRiskScore_bounds (bets : List HedgeBet)
    (hp : ∀ b ∈ bets, 0 ≤ b.current_price ∧ b.current_price ≤ 1) :
    0 ≤ calculateRiskScore bets ∧ calculateRiskScore bets ≤ 100 := by
  rw [calculateRiskScore_eq_spec, score_bundle_risk_spec]
  dsimp only
  split_ifs with h
  · norm_num
  · have hn : 0 < bets.length := by
      rcases Nat.eq_zero_or_pos bets.length with h0 | h0
      · exact absurd (Or.inl h0) h
      · exact h0
    have hpk : ∀ k, k < bets.length →
        0 ≤ effectivePrice (bets.getD k defaultBet) ∧
          effectivePrice (bets.getD k defaultBet) ≤ 1 := by
      intro k hk
      have hmem : bets.getD k defaultBet ∈ bets := getD_mem bets k defaultBet hk
      have hb := hp _ hmem
      rw [effectivePrice]
      split_ifs with hz
      · norm_num
      · exact hb
    have habs : ∀ k ∈ Finset.range bets.length,
        |effectivePrice (bets.getD k defaultBet) - 1/2| ≤ (1/2 : ℚ) := by
      intro k hk
      rcases hpk k (Finset.mem_range.mp hk) with ⟨h0, h1⟩
      rw [abs_le]
      constructor <;> linarith
    have hsum_le :
        (∑ k ∈ Finset.range bets.length, |effectivePrice (bets.getD k defaultBet) - 1/2|) ≤
          (bets.length : ℚ) * (1/2) := by
      calc (∑ k ∈ Finset.range bets.length, |effectivePrice (bets.getD k defaultBet) - 1/2|)
          ≤ ∑ _k ∈ Finset.range bets.length, (1/2 : ℚ) := Finset.sum_le_sum habs
        _ = (bets.length : ℚ) * (1/2) := by
            rw [Finset.sum_const, Finset.card_range, nsmul_eq_mul]
    have hsum_nonneg :
        (0 : ℚ) ≤ ∑ k ∈ Finset.range bets.length,
          |effectivePrice (bets.getD k defaultBet) - 1/2| :=
      Finset.sum_nonneg fun k _ => abs_nonneg _
    have hnq : (0 : ℚ) < (bets.length : ℚ) := by exact_mod_cast hn
    have hD0 : (0 : ℚ) ≤
        (∑ k ∈ Finset.range bets.length, |effectivePrice (bets.getD k defaultBet) - 1/2|) /
          (bets.length : ℚ) := div_nonneg hsum_nonneg (le_of_lt hnq)
    have hD2 :
        (∑ k ∈ Finset.range bets.length, |effectivePrice (bets.getD k defaultBet) - 1/2|) /
          (bets.length : ℚ) ≤ 1/2 := by
      rw [div_le_iff₀ hnq]
      linarith
    have hB0 : (0 : ℚ) ≤
        (1 - (∑ k ∈ Finset.range bets.length,
            |effectivePrice (bets.getD k defaultBet) - 1/2|) /
          (bets.length : ℚ) * 2) * 100 := by nlinarith
    have hB100 :
        (1 - (∑ k ∈ Finset.range bets.length,
            |effectivePrice (bets.getD k defaultBet) - 1/2|) /
          (bets.length : ℚ) * 2) * 100 ≤ 100 := by nlinarith
    have hA0 : (0 : ℝ) ≤
        min (Real.sqrt ((∑ k ∈ Finset.range bets.length,
          ((bets.getD k defaultBet).allocation /
              ∑ k ∈ Finset.range bets.length, (bets.getD k defaultBet).allocation) ^ 2 *
            effectivePrice (bets.getD k defaultBet) *
            (1 - effectivePrice (bets.getD k defaultBet)) : ℚ) : ℝ) * 400) 100 :=
      le_min (by positivity) (by norm_num)
    have hA100 :
        min (Real.sqrt ((∑ k ∈ Finset.range bets.length,
          ((bets.getD k defaultBet).allocation /
              ∑ k ∈ Finset.range bets.length, (bets.getD k defaultBet).allocation) ^ 2 *
            effectivePrice (bets.getD k defaultBet) *
            (1 - effectivePrice (bets.getD k defaultBet)) : ℚ) : ℝ) * 400) 100 ≤ 100 :=
      min_le_right _ _
    have hB0R : (0 : ℝ) ≤
        ((1 - (∑ k ∈ Finset.range bets.length,
            |effectivePrice (bets.getD k defaultBet) - 1/2|) /
          (bets.length : ℚ) * 2) * 100 : ℚ) := by exact_mod_cast hB0
    have hB100R :
        (((1 - (∑ k ∈ Finset.range bets.length,
            |effectivePrice (bets.getD k defaultBet) - 1/2|) /
          (bets.length : ℚ) * 2) * 100 : ℚ) : ℝ) ≤ 100 := by exact_mod_cast hB100
    constructor
    · nlinarith
    · nlinarith

/-- C5.  `calculateRiskScore` returns 0 for an empty bet list and for any
list whose allocation sum is not positive; otherwise it computes exactly
the spec's formula
`0.7 * min(sqrt(Σ w k ^ 2 * p k * (1 - p k)) * 400, 100)
 + 0.3 * (1 - mean |p k - 0.5| * 2) * 100`
with the 0.5 price fallback (stated as the refinement to
`score_bundle_risk_spec`, which holds for every input); and whenever all
recorded prices lie in `[0, 1]` the result lies in `[0, 100]`. -/
theorem score_bundle_risk_properties :
    (∀ bets, calculateRiskScore bets = score_bundle_risk_spec bets) ∧
    calculateRiskScore [] = 0 ∧
    (∀ bets : List HedgeBet, (bets.map HedgeBet.allocation).sum ≤ 0 →
      calculateRiskScore bets = 0) ∧
    (∀ bets : List HedgeBet, (∀ b ∈ bets, 0 ≤ b.current_price ∧ b.current_price ≤ 1) →
      0 ≤ calculateRiskScore bets ∧ calculateRiskScore bets ≤ 100) := by
  refine ⟨calculateRiskScore_eq_spec, by rw [calculateRiskScore]; simp, ?_,
    calculateRiskScore_bounds⟩
  intro bets hsum
  rw [calculateRiskScore]
  dsimp only
  split_ifs with h1 h2
  · rfl
  · rfl
  · exfalso
    rw [foldl_add_sum, zero_add] at h2
    exact h2 hsum

/-- Witness for `score_bundle_risk_properties`: a single bet with
allocation 0 has a non-positive allocation sum, so its risk score is 0; and
its price 1/2 lies in [0, 1], so the bounds clause applies as well. -/
theorem score_bundle_risk_properties_witness :
    calculateRiskScore [⟨0, 1, 0, 1/2⟩] = 0 ∧
    0 ≤ calculateRiskScore [⟨0, 1, 0, 1/2⟩] ∧ calculateRiskScore [⟨0, 1, 0, 1/2⟩] ≤ 100 :=
  ⟨score_bundle_risk_properties.2.2.1 [⟨0, 1, 0, 1/2⟩] (by norm_num),
   score_bundle_risk_properties.2.2.2 [⟨0, 1, 0, 1/2⟩]
     (by
       intro b hb
       fin_cases hb
       norm_num)⟩

/-! ### Portfolio metrics (C6) -/

/-- The bundle aggregator's independently recomputed total allocation is
the sum of the bundle's bet allocations. -/
theorem bundleMetrics_total_allocation (b : HedgeBundle) :
    (calculateBundleMetrics b).total_allocation = allocSum b.bets := by
  rw [calculateBundleMetrics]
  split_ifs with h
  · rw [h]
    rfl
  · dsimp only
    rw [foldl_add_eq_sum HedgeBet.allocation, zero_add, allocSum]

/-- The bundle aggregator's risk score is `calculateRiskScore` of its bets
(also in the empty case, where both are 0). -/
theorem bundleMetrics_risk_score (b : HedgeBundle) :
    (calculateBundleMetrics b).risk_score = calculateRiskScore b.bets := by
  rw [calculateBundleMetrics]
  split_ifs with h
  · rw [h, calculateRiskScore]
    simp
  · rfl

/-- C6.  `calculatePortfolioMetrics` reports `total_allocated` as the sum
of the bundles' recorded `total_allocated` fields (not recomputed from
bets), reads `total_budget` from the first bundle only (0 with no bundles),
reports overall risk 0 when the recorded total allocated is 0, and
otherwise reports the allocation-weighted combination of the per-bundle
risk scores: each bundle's `calculateRiskScore` weighted by that bundle's
recomputed total allocation divided by the recorded grand total. -/
theorem calculatePortfolioMetrics_fields :
    (∀ bundles : List HedgeBundle,
      (calculatePortfolioMetrics bundles).total_allocated =
        (bundles.map HedgeBundle.total_allocated).sum) ∧
    (∀ bundles : List HedgeBundle,
      (calculatePortfolioMetrics bundles).total_budget =
        (match bundles with | [] => 0 | b :: _ => b.budget)) ∧
    (∀ bundles : List HedgeBundle,
      (bundles.map HedgeBundle.total_allocated).sum = 0 →
      (calculatePortfolioMetrics bundles).overall_risk_score = 0) ∧
    (∀ bundles : List HedgeBundle,
      0 < (bundles.map HedgeBundle.total_allocated).sum →
      (calculatePortfolioMetrics bundles).overall_risk_score =
        (bundles.map fun b =>
          calculateRiskScore b.bets * ((allocSum b.bets : ℚ) : ℝ) /
            (((bundles.map HedgeBundle.total_allocated).sum : ℚ) : ℝ)).sum) := by
  have hfold : ∀ bundles : List HedgeBundle,
      (bundles.foldl (fun sum b => sum + b.total_allocated) 0 : ℚ) =
        (bundles.map HedgeBundle.total_allocated).sum := by
    intro bundles
    rw [foldl_add_eq_sum HedgeBundle.total_allocated, zero_add]
  refine ⟨?_, ?_, ?_, ?_⟩
  · intro bundles
    rw [calculatePortfolioMetrics.eq_def]
    exact hfold bundles
  · intro bundles
    cases bundles with
    | nil => rfl
    | cons b rest =>
      show jsNumOr b.budget 0 = b.budget
      rw [jsNumOr]
      split_ifs with h
      · exact h.symm
      · rfl
  · intro bundles hz
    rw [calculatePortfolioMetrics.eq_def]
    dsimp only
    rw [if_neg (by rw [hfold bundles, hz]; exact lt_irrefl 0)]
  · intro bundles hpos
    rw [calculatePortfolioMetrics.eq_def]
    dsimp only
    rw [if_pos (by rw [hfold bundles]; exact hpos)]
    have hW : ((bundles.map calculateBundleMetrics).foldl
        (fun sum m => sum + m.risk_score * (m.total_allocation : ℝ)) (0 : ℝ)) =
        (bundles.map fun b =>
          calculateRiskScore b.bets * ((allocSum b.bets : ℚ) : ℝ)).sum := by
      rw [foldl_add_eq_sum (fun m : BundleMetrics => m.risk_score * (m.total_allocation : ℝ)),
        zero_add, List.map_map]
      congr 1
      refine List.map_congr_left fun b _ => ?_
      show (calculateBundleMetrics b).risk_score *
          ((calculateBundleMetrics b).total_allocation : ℝ) =
        calculateRiskScore b.bets * ((allocSum b.bets : ℚ) : ℝ)
      rw [bundleMetrics_risk_score, bundleMetrics_total_allocation]
    rw [hW, hfold bundles, ← sum_map_div
      (fun b : HedgeBundle => calculateRiskScore b.bets * ((allocSum b.bets : ℚ) : ℝ))
      (((bundles.map HedgeBundle.total_allocated).sum : ℚ) : ℝ)]

/-- Witness for `calculatePortfolioMetrics_fields`: a portfolio whose
single (empty) bundle records `total_allocated = 0` reports overall risk 0,
and with recorded total 7 reports it as the portfolio total. -/
theorem calculatePortfolioMetrics_fields_witness :
    (calculatePortfolioMetrics
      [{ budget := 100, bets := [], total_allocated := 0 }]).overall_risk_score = 0 ∧
    (calculatePortfolioMetrics
      [{ budget := 100, bets := [], total_allocated := 7 }]).total_allocated =
      ([({ budget := 100, bets := [], total_allocated := 7 } : HedgeBundle)].map
        HedgeBundle.total_allocated).sum :=
  ⟨calculatePortfolioMetrics_fields.2.2.1
      [{ budget := 100, bets := [], total_allocated := 0 }] (by norm_num),
   calculatePortfolioMetrics_fields.1
      [{ budget := 100, bets := [], total_allocated := 7 }]⟩

end PolyHedge
